import Mathlib

/-!
Shallow embedding of the rust-tiff repository (src/main.rs, src/byte_stream.rs).

The byte source (`File` / any `Read + Seek`) is modelled as a list of bytes
together with a cursor position.  Rust's `&mut` stream threading is modelled by
explicit state passing: every operation returns `Except String α × ByteStream`,
so the stream state is available on the error path too (as it is in Rust, where
the caller keeps the `&mut` borrow after an `Err`).  Machine integers are `Nat`;
all values produced by reads are bounded by construction (bytes come from the
data list).  Rust's `Box<dyn Error>` is modelled as `String`.
-/

deriving instance DecidableEq for Except

namespace RustTiff

/-- Byte order of the stream, from byte_stream.rs (`enum ByteOrder`). -/
inductive ByteOrder where
  | LittleEndian
  | BigEndian
deriving DecidableEq, Repr

/-- The stream: byte source plus cursor plus stored order, from byte_stream.rs
(`struct ByteStream`; the `reader` field is the data list together with the
cursor that the underlying `File`/`Cursor` keeps). -/
structure ByteStream where
  data : List Nat
  pos : Nat
  order : ByteOrder
deriving DecidableEq, Repr

/-- Model of `read_exact` on the underlying reader: return exactly `n` bytes
from the cursor, advancing it, or fail when fewer than `n` bytes remain
(a short read is an error, not a partial fill). -/
def readBytesRaw (n : Nat) (s : ByteStream) : Except String (List Nat) × ByteStream :=
  if s.pos + n ≤ s.data.length then
    (.ok ((s.data.drop s.pos).take n), { s with pos := s.pos + n })
  else
    (.error "failed to fill whole buffer", s)

/-- Little-endian reassembly of a byte list (least significant byte first),
modelling omnom `read_le`. -/
def leValue : List Nat → Nat
  | [] => 0
  | b :: bs => b + 256 * leValue bs

/-- Big-endian reassembly of a byte list (most significant byte first),
modelling omnom `read_be`. -/
def beValue (bs : List Nat) : Nat :=
  bs.foldl (fun acc b => acc * 256 + b) 0

/-- `ByteStream::read_with_order`: read an `n`-byte unsigned integer using the
caller-supplied order, overriding the stored order for this call only. -/
def ByteStream.read_with_order (s : ByteStream) (o : ByteOrder) (n : Nat) :
    Except String Nat × ByteStream :=
  match readBytesRaw n s with
  | (.ok bs, s') =>
    (match o with
     | .LittleEndian => (.ok (leValue bs), s')
     | .BigEndian => (.ok (beValue bs), s'))
  | (.error e, s') => (.error e, s')

/-- `ByteStream::read`: read an `n`-byte unsigned integer using the stored order. -/
def ByteStream.read (s : ByteStream) (n : Nat) : Except String Nat × ByteStream :=
  s.read_with_order s.order n

/-- `ByteStream::set_order`: mutate the stored order. -/
def ByteStream.set_order (s : ByteStream) (o : ByteOrder) : ByteStream :=
  { s with order := o }

/-- `ByteStream::read_bytes`: fill a buffer of the given size exactly. -/
def ByteStream.read_bytes (s : ByteStream) (n : Nat) :
    Except String (List Nat) × ByteStream :=
  readBytesRaw n s

/-- `ByteStream::seek` with `SeekFrom::Start p`: reposition the cursor
absolutely.  For an in-memory/file source an absolute seek succeeds (seeking
past the end is allowed; later reads fail). -/
def ByteStream.seek (s : ByteStream) (p : Nat) : Except String Nat × ByteStream :=
  (.ok p, { s with pos := p })

/-- `open_raw_file` (main.rs): read the first two raw bytes of the file;
`II` (0x49,0x49) gives a little-endian stream, `MM` (0x4D,0x4D) a big-endian
one, anything else is a terminal error.  The returned stream's cursor sits
just past the two marker bytes, as the `File`'s does in Rust. -/
def open_raw_file (data : List Nat) : Except String ByteStream :=
  match data.get? 0, data.get? 1 with
  | some byte_1, some byte_2 =>
    if byte_1 = 0x49 ∧ byte_2 = 0x49 then
      .ok ⟨data, 2, .LittleEndian⟩
    else if byte_1 = 0x4D ∧ byte_2 = 0x4D then
      .ok ⟨data, 2, .BigEndian⟩
    else
      .error "not a valid file"
  | _, _ => .error "failed to fill whole buffer"

/-- `struct TiffHeader`. -/
structure TiffHeader where
  magic : Nat
  ifd_start : Nat
deriving DecidableEq, Repr

/-- `TiffHeader::parse`: read `magic` (u16) then `ifd_start` (u32) with the
stored order; if `magic ≠ 42` fail, otherwise return the header. -/
def TiffHeader.parse (s : ByteStream) : Except String TiffHeader × ByteStream :=
  match s.read 2 with
  | (.ok magic, s1) =>
    (match s1.read 4 with
     | (.ok ifd_start, s2) =>
       if magic ≠ 42 then (.error "not a TIFF file", s2)
       else (.ok ⟨magic, ifd_start⟩, s2)
     | (.error e, s2) => (.error e, s2))
  | (.error e, s1) => (.error e, s1)

/-- `struct IFE`: one image-file-directory entry (tag id, type code, element
count, value offset). -/
structure IFE where
  tag : Nat
  entry_type : Nat
  count : Nat
  offset : Nat
deriving DecidableEq, Repr

/-- `IFE::parse`: read tag (u16), entry_type (u16), count (u32), offset (u32)
in that order with the stored order; no validation at parse time. -/
def IFE.parse (s : ByteStream) : Except String IFE × ByteStream :=
  match s.read 2 with
  | (.ok tag, s1) =>
    (match s1.read 2 with
     | (.ok entry_type, s2) =>
       (match s2.read 4 with
        | (.ok count, s3) =>
          (match s3.read 4 with
           | (.ok offset, s4) => (.ok ⟨tag, entry_type, count, offset⟩, s4)
           | (.error e, s4) => (.error e, s4))
        | (.error e, s3) => (.error e, s3))
     | (.error e, s2) => (.error e, s2))
  | (.error e, s1) => (.error e, s1)

/-- `IFE::seek_to`: seek the stream to this entry's `offset` (absolute). -/
def IFE.seek_to (e : IFE) (s : ByteStream) : Except String Unit × ByteStream :=
  match s.seek e.offset with
  | (.ok _, s') => (.ok (), s')
  | (.error err, s') => (.error err, s')

/-- `IFE::read_as_bytes`: seek to `offset` and read exactly `count` raw bytes.
The `count.try_into()` from u32 to usize in the source always succeeds. -/
def IFE.read_as_bytes (e : IFE) (s : ByteStream) :
    Except String (List Nat) × ByteStream :=
  match e.seek_to s with
  | (.ok _, s1) => s1.read_bytes e.count
  | (.error err, s1) => (.error err, s1)

/-- `IFE::to_short`: require entry_type 3, seek to `offset`, read one u16. -/
def IFE.to_short (e : IFE) (s : ByteStream) : Except String Nat × ByteStream :=
  if e.entry_type ≠ 3 then (.error "not short", s)
  else
    match e.seek_to s with
    | (.ok _, s1) => s1.read 2
    | (.error err, s1) => (.error err, s1)

/-- `IFE::to_long`: require entry_type 4, seek to `offset`, read one u32. -/
def IFE.to_long (e : IFE) (s : ByteStream) : Except String Nat × ByteStream :=
  if e.entry_type ≠ 4 then (.error "not long", s)
  else
    match e.seek_to s with
    | (.ok _, s1) => s1.read 4
    | (.error err, s1) => (.error err, s1)

/-- Model of the IEEE-754 double values `numerator as f64 / denominator as f64`
can take for u32 operands: a zero denominator gives NaN (0/0) or +infinity
(n/0, n > 0) per IEEE semantics; a nonzero denominator gives a finite value,
abstracted here as the exact rational quotient (the rounding of the finite
case is not relevant to any property below). -/
inductive F64 where
  | finite (q : ℚ)
  | posInf
  | nan
deriving DecidableEq, Repr

/-- IEEE-754 division of two nonnegative integers cast to f64, under the
abstraction above. -/
def natDivF64 (n d : Nat) : F64 :=
  if d = 0 then (if n = 0 then .nan else .posInf)
  else .finite ((n : ℚ) / (d : ℚ))

/-- `IFE::to_rational`: require entry_type 5, seek to `offset`, read two u32
(numerator then denominator), divide as f64 with no zero-denominator guard. -/
def IFE.to_rational (e : IFE) (s : ByteStream) : Except String F64 × ByteStream :=
  if e.entry_type ≠ 5 then (.error "not rational", s)
  else
    match e.seek_to s with
    | (.ok _, s1) =>
      match s1.read 4 with
      | (.ok numerator, s2) =>
        (match s2.read 4 with
         | (.ok denominator, s3) => (.ok (natDivF64 numerator denominator), s3)
         | (.error err, s3) => (.error err, s3))
      | (.error err, s2) => (.error err, s2)
    | (.error err, s1) => (.error err, s1)

/-- Whether a byte is a UTF-8 continuation byte (0x80–0xBF). -/
def utf8Cont (b : Nat) : Prop := 0x80 ≤ b ∧ b ≤ 0xBF

instance (b : Nat) : Decidable (utf8Cont b) := by
  unfold utf8Cont; infer_instance

/-- Model of `std::str::from_utf8` followed by collection into a `String`:
decode a byte list as UTF-8, returning the list of scalar values (the string's
chars) or `none` when the bytes are not valid UTF-8.  Follows the UTF-8
well-formedness table (RFC 3629): rejects overlong forms, surrogates and
values above U+10FFFF. -/
def utf8Decode : List Nat → Option (List Nat)
  | [] => some []
  | b :: rest =>
    if b < 0x80 then
      (utf8Decode rest).map (fun cs => b :: cs)
    else
      match rest with
      | c1 :: rest1 =>
        if 0xC2 ≤ b ∧ b ≤ 0xDF ∧ utf8Cont c1 then
          (utf8Decode rest1).map (fun cs => ((b - 0xC0) * 0x40 + (c1 - 0x80)) :: cs)
        else
          match rest1 with
          | c2 :: rest2 =>
            if 0xE0 ≤ b ∧ b ≤ 0xEF ∧
                (if b = 0xE0 then 0xA0 ≤ c1 ∧ c1 ≤ 0xBF
                 else if b = 0xED then 0x80 ≤ c1 ∧ c1 ≤ 0x9F
                 else utf8Cont c1) ∧ utf8Cont c2 then
              (utf8Decode rest2).map (fun cs =>
                ((b - 0xE0) * 0x1000 + (c1 - 0x80) * 0x40 + (c2 - 0x80)) :: cs)
            else
              match rest2 with
              | c3 :: rest3 =>
                if 0xF0 ≤ b ∧ b ≤ 0xF4 ∧
                    (if b = 0xF0 then 0x90 ≤ c1 ∧ c1 ≤ 0xBF
                     else if b = 0xF4 then 0x80 ≤ c1 ∧ c1 ≤ 0x8F
                     else utf8Cont c1) ∧ utf8Cont c2 ∧ utf8Cont c3 then
                  (utf8Decode rest3).map (fun cs =>
                    ((b - 0xF0) * 0x40000 + (c1 - 0x80) * 0x1000 +
                      (c2 - 0x80) * 0x40 + (c3 - 0x80)) :: cs)
                else none
              | [] => none
          | [] => none
      | [] => none

/-- `IFE::to_ascii`: require entry_type 2, read `count` raw bytes at `offset`,
decode them as UTF-8 with no null-stripping. -/
def IFE.to_ascii (e : IFE) (s : ByteStream) : Except String (List Nat) × ByteStream :=
  if e.entry_type ≠ 2 then (.error "not ascii", s)
  else
    match e.read_as_bytes s with
    | (.ok buffer, s1) =>
      (match utf8Decode buffer with
       | some cs => (.ok cs, s1)
       | none => (.error "invalid utf-8", s1))
    | (.error err, s1) => (.error err, s1)

/-- `struct IFD`: one directory, the ordered list of its entries. -/
structure IFD where
  entries : List IFE
deriving DecidableEq, Repr

/-- The `for i in 0..count` loop body of `IFD::parse`: parse `n` entries in
sequence, propagating the first error. -/
def parseEntries : Nat → ByteStream → Except String (List IFE) × ByteStream
  | 0, s => (.ok [], s)
  | n + 1, s =>
    match IFE.parse s with
    | (.ok e, s1) =>
      (match parseEntries n s1 with
       | (.ok es, s2) => (.ok (e :: es), s2)
       | (.error err, s2) => (.error err, s2))
    | (.error err, s1) => (.error err, s1)

/-- `IFD::parse`: read the u16 entry count, parse that many entries, read the
u32 next-directory offset; if it is 0 return the singleton list, otherwise seek
to it, parse the rest of the chain recursively and append the current directory
to the end of the recursively produced list (`remaining.push(read_ifd)`).
The Rust recursion is bounded only by the chain in the file; `fuel` models the
call stack, and every property below quantifies over sufficient fuel. -/
def IFD.parse : Nat → ByteStream → Except String (List IFD) × ByteStream
  | 0, s => (.error "recursion limit", s)
  | fuel + 1, s =>
    match s.read 2 with
    | (.ok count, s1) =>
      (match parseEntries count s1 with
       | (.ok entries, s2) =>
         (match s2.read 4 with
          | (.ok next, s3) =>
            if next = 0 then (.ok [⟨entries⟩], s3)
            else
              (match s3.seek next with
               | (.ok _, s4) =>
                 (match IFD.parse fuel s4 with
                  | (.ok remaining, s5) => (.ok (remaining ++ [⟨entries⟩]), s5)
                  | (.error err, s5) => (.error err, s5))
               | (.error err, s4) => (.error err, s4))
          | (.error err, s3) => (.error err, s3))
       | (.error err, s2) => (.error err, s2))
    | (.error err, s1) => (.error err, s1)

/-! Theorems. -/

/-- C2: for every input source, opening succeeds with byte order LittleEndian
exactly when the first two bytes are "II" (0x49,0x49), succeeds with BigEndian
exactly when they are "MM" (0x4D,0x4D), and fails with a terminal error for
any other byte pair (including too-short inputs). -/
theorem open_raw_file_spec (data : List Nat) :
    ((∃ s, open_raw_file data = .ok s ∧ s.order = .LittleEndian) ↔
      (data.get? 0 = some 0x49 ∧ data.get? 1 = some 0x49)) ∧
    ((∃ s, open_raw_file data = .ok s ∧ s.order = .BigEndian) ↔
      (data.get? 0 = some 0x4D ∧ data.get? 1 = some 0x4D)) ∧
    (¬(data.get? 0 = some 0x49 ∧ data.get? 1 = some 0x49) →
      ¬(data.get? 0 = some 0x4D ∧ data.get? 1 = some 0x4D) →
      ∃ err, open_raw_file data = .error err) := by
  unfold open_raw_file
  rcases h0 : data.get? 0 with _ | b1 <;> rcases h1 : data.get? 1 with _ | b2
  · simp
  · simp
  · simp
  · by_cases hII : b1 = 0x49 ∧ b2 = 0x49
    · obtain ⟨rfl, rfl⟩ := hII
      simp
    · by_cases hMM : b1 = 0x4D ∧ b2 = 0x4D
      · obtain ⟨rfl, rfl⟩ := hMM
        simp
      · simp [hII, hMM]

/-- C2 witness: the theorem instantiated at a non-marker byte pair produces a
terminal error; at the "II" marker it forces a little-endian open. -/
theorem open_raw_file_spec_witness :
    (∃ err, open_raw_file [0, 1, 42] = .error err) ∧
    (∃ s, open_raw_file [0x49, 0x49, 42, 0] = .ok s ∧ s.order = .LittleEndian) :=
  ⟨(open_raw_file_spec [0, 1, 42]).2.2 (by decide) (by decide),
   (open_raw_file_spec [0x49, 0x49, 42, 0]).1.mpr (by decide)⟩

/-- C3 counterexample: on the two-byte little-endian stream `[42, 0]` the
header parser reads a magic of 42 yet returns no Header (the ifd_start read
fails with an I/O error), refuting "returns a Header if and only if the magic
it reads equals 42". -/
theorem tiffheader_parse_magic_42_no_header :
    (ByteStream.read ⟨[42, 0], 0, .LittleEndian⟩ 2).1 = .ok 42 ∧
    (TiffHeader.parse ⟨[42, 0], 0, .LittleEndian⟩).1 =
      .error "failed to fill whole buffer" := by
  constructor <;> rfl

/-- C3 (amended): a successful header parse always carries magic = 42; and
whenever both header reads succeed, the parse returns the Header exactly when
the magic read equals 42, and a format error (no Header) otherwise. -/
theorem tiffheader_parse_magic_spec (s : ByteStream) :
    (∀ h s', TiffHeader.parse s = (.ok h, s') → h.magic = 42) ∧
    (∀ m s1 v s2, s.read 2 = (.ok m, s1) → s1.read 4 = (.ok v, s2) →
      TiffHeader.parse s =
        (if m = 42 then (.ok ⟨m, v⟩, s2) else (.error "not a TIFF file", s2))) := by
  constructor
  · intro hh s' hp
    unfold TiffHeader.parse at hp
    split at hp
    · split at hp
      · split at hp
        · simp at hp
        · rename_i hcond
          simp only [Prod.mk.injEq, Except.ok.injEq] at hp
          rw [← hp.1]
          simpa using hcond
      · simp at hp
    · simp at hp
  · intro m s1 v s2 h1 h2
    unfold TiffHeader.parse
    simp only [h1, h2]
    by_cases hm : m = 42 <;> simp [hm]

/-- C3 amended-claim witness: on a well-formed little-endian header the parse
returns the Header with magic 42 and the advertised ifd_start. -/
theorem tiffheader_parse_magic_spec_witness :
    TiffHeader.parse ⟨[0x49, 0x49, 42, 0, 8, 0, 0, 0], 2, .LittleEndian⟩ =
      (.ok ⟨42, 8⟩, ⟨[0x49, 0x49, 42, 0, 8, 0, 0, 0], 8, .LittleEndian⟩) := by
  have h := (tiffheader_parse_magic_spec
    ⟨[0x49, 0x49, 42, 0, 8, 0, 0, 0], 2, .LittleEndian⟩).2 42
    ⟨[0x49, 0x49, 42, 0, 8, 0, 0, 0], 4, .LittleEndian⟩ 8
    ⟨[0x49, 0x49, 42, 0, 8, 0, 0, 0], 8, .LittleEndian⟩ rfl rfl
  simpa using h

/-- C4: calling a typed accessor on an entry whose entry_type differs from the
accessor's required code (3 for to_short, 4 for to_long, 5 for to_rational,
2 for to_ascii) fails with a type-mismatch error and returns no value. -/
theorem accessor_type_mismatch (e : IFE) (s : ByteStream) :
    (e.entry_type ≠ 3 → e.to_short s = (.error "not short", s)) ∧
    (e.entry_type ≠ 4 → e.to_long s = (.error "not long", s)) ∧
    (e.entry_type ≠ 5 → e.to_rational s = (.error "not rational", s)) ∧
    (e.entry_type ≠ 2 → e.to_ascii s = (.error "not ascii", s)) := by
  refine ⟨fun h => ?_, fun h => ?_, fun h => ?_, fun h => ?_⟩ <;>
    simp [IFE.to_short, IFE.to_long, IFE.to_rational, IFE.to_ascii, h]

/-- C4 witness: an entry of type 99 is rejected by all four accessors. -/
theorem accessor_type_mismatch_witness :
    IFE.to_short ⟨0, 99, 1, 0⟩ ⟨[1, 2], 0, .LittleEndian⟩ =
      (.error "not short", ⟨[1, 2], 0, .LittleEndian⟩) ∧
    IFE.to_long ⟨0, 99, 1, 0⟩ ⟨[1, 2], 0, .LittleEndian⟩ =
      (.error "not long", ⟨[1, 2], 0, .LittleEndian⟩) ∧
    IFE.to_rational ⟨0, 99, 1, 0⟩ ⟨[1, 2], 0, .LittleEndian⟩ =
      (.error "not rational", ⟨[1, 2], 0, .LittleEndian⟩) ∧
    IFE.to_ascii ⟨0, 99, 1, 0⟩ ⟨[1, 2], 0, .LittleEndian⟩ =
      (.error "not ascii", ⟨[1, 2], 0, .LittleEndian⟩) :=
  ⟨(accessor_type_mismatch ⟨0, 99, 1, 0⟩ ⟨[1, 2], 0, .LittleEndian⟩).1 (by decide),
   (accessor_type_mismatch ⟨0, 99, 1, 0⟩ ⟨[1, 2], 0, .LittleEndian⟩).2.1 (by decide),
   (accessor_type_mismatch ⟨0, 99, 1, 0⟩ ⟨[1, 2], 0, .LittleEndian⟩).2.2.1 (by decide),
   (accessor_type_mismatch ⟨0, 99, 1, 0⟩ ⟨[1, 2], 0, .LittleEndian⟩).2.2.2 (by decide)⟩

/-- C9: a type-mismatch failure in a typed accessor is atomic with respect to
reader state: no seek and no read happen, so the stream (cursor position,
stored order, data) is returned exactly as it was before the call. -/
theorem accessor_type_mismatch_frame (e : IFE) (s : ByteStream) :
    (e.entry_type ≠ 3 → (e.to_short s).2 = s) ∧
    (e.entry_type ≠ 4 → (e.to_long s).2 = s) ∧
    (e.entry_type ≠ 5 → (e.to_rational s).2 = s) ∧
    (e.entry_type ≠ 2 → (e.to_ascii s).2 = s) := by
  refine ⟨fun h => ?_, fun h => ?_, fun h => ?_, fun h => ?_⟩ <;>
    simp [IFE.to_short, IFE.to_long, IFE.to_rational, IFE.to_ascii, h]

/-- C9 witness: a mid-stream big-endian reader passed to mismatching accessors
comes back with its cursor and order untouched. -/
theorem accessor_type_mismatch_frame_witness :
    (IFE.to_short ⟨5, 2, 4, 9⟩ ⟨[3, 1, 4], 1, .BigEndian⟩).2 =
      ⟨[3, 1, 4], 1, .BigEndian⟩ ∧
    (IFE.to_long ⟨5, 2, 4, 9⟩ ⟨[3, 1, 4], 1, .BigEndian⟩).2 =
      ⟨[3, 1, 4], 1, .BigEndian⟩ ∧
    (IFE.to_rational ⟨5, 2, 4, 9⟩ ⟨[3, 1, 4], 1, .BigEndian⟩).2 =
      ⟨[3, 1, 4], 1, .BigEndian⟩ ∧
    (IFE.to_ascii ⟨5, 3, 4, 9⟩ ⟨[3, 1, 4], 1, .BigEndian⟩).2 =
      ⟨[3, 1, 4], 1, .BigEndian⟩ :=
  ⟨(accessor_type_mismatch_frame ⟨5, 2, 4, 9⟩ ⟨[3, 1, 4], 1, .BigEndian⟩).1 (by decide),
   (accessor_type_mismatch_frame ⟨5, 2, 4, 9⟩ ⟨[3, 1, 4], 1, .BigEndian⟩).2.1 (by decide),
   (accessor_type_mismatch_frame ⟨5, 2, 4, 9⟩ ⟨[3, 1, 4], 1, .BigEndian⟩).2.2.1 (by decide),
   (accessor_type_mismatch_frame ⟨5, 3, 4, 9⟩ ⟨[3, 1, 4], 1, .BigEndian⟩).2.2.2 (by decide)⟩

/-- C8: read_with_order uses only the caller-supplied order for that call,
leaving the reader's stored byte order (and its data) unchanged, and `read`
with the stored order is exactly read_with_order applied to the stored
order. -/
theorem read_with_order_frame (s : ByteStream) (o : ByteOrder) (n : Nat) :
    (s.read_with_order o n).2.order = s.order ∧
    (s.read_with_order o n).2.data = s.data ∧
    s.read n = s.read_with_order s.order n := by
  refine ⟨?_, ?_, rfl⟩ <;>
    (unfold ByteStream.read_with_order readBytesRaw
     split_ifs <;> cases o <;> rfl)

/-- C10: to_short, to_long and to_rational never look at the entry's count
field: replacing count by any value leaves the result unchanged; and with the
matching entry_type each reads its fixed-width data at the entry's offset
(one 16-bit value, one 32-bit value, two 32-bit values respectively). -/
theorem fixed_width_accessors_ignore_count (e : IFE) (c : Nat) (s : ByteStream) :
    IFE.to_short ⟨e.tag, e.entry_type, c, e.offset⟩ s = e.to_short s ∧
    IFE.to_long ⟨e.tag, e.entry_type, c, e.offset⟩ s = e.to_long s ∧
    IFE.to_rational ⟨e.tag, e.entry_type, c, e.offset⟩ s = e.to_rational s ∧
    (e.entry_type = 3 → e.to_short s = ByteStream.read { s with pos := e.offset } 2) ∧
    (e.entry_type = 4 → e.to_long s = ByteStream.read { s with pos := e.offset } 4) ∧
    (e.entry_type = 5 → e.to_rational s =
      (match ByteStream.read { s with pos := e.offset } 4 with
       | (.ok numerator, s2) =>
         (match s2.read 4 with
          | (.ok denominator, s3) => (.ok (natDivF64 numerator denominator), s3)
          | (.error err, s3) => (.error err, s3))
       | (.error err, s2) => (.error err, s2))) := by
  refine ⟨rfl, rfl, rfl, fun h => ?_, fun h => ?_, fun h => ?_⟩ <;>
    simp [IFE.to_short, IFE.to_long, IFE.to_rational, IFE.seek_to, ByteStream.seek, h]

/-- C10 witness: at matching entries the three accessors give identical
results for count 0 and count 211, and read their fixed-width data at the
offset. -/
theorem fixed_width_accessors_ignore_count_witness :
    IFE.to_short ⟨1, 3, 0, 2⟩ ⟨[9, 9, 5, 0, 1, 0, 0, 0, 2, 0, 0, 0], 0, .LittleEndian⟩ =
      IFE.to_short ⟨1, 3, 211, 2⟩ ⟨[9, 9, 5, 0, 1, 0, 0, 0, 2, 0, 0, 0], 0, .LittleEndian⟩ ∧
    IFE.to_long ⟨1, 4, 0, 2⟩ ⟨[9, 9, 5, 0, 1, 0, 0, 0, 2, 0, 0, 0], 0, .LittleEndian⟩ =
      IFE.to_long ⟨1, 4, 211, 2⟩ ⟨[9, 9, 5, 0, 1, 0, 0, 0, 2, 0, 0, 0], 0, .LittleEndian⟩ ∧
    IFE.to_rational ⟨1, 5, 0, 4⟩ ⟨[9, 9, 5, 0, 1, 0, 0, 0, 2, 0, 0, 0], 0, .LittleEndian⟩ =
      IFE.to_rational ⟨1, 5, 211, 4⟩ ⟨[9, 9, 5, 0, 1, 0, 0, 0, 2, 0, 0, 0], 0, .LittleEndian⟩ ∧
    IFE.to_short ⟨1, 3, 211, 2⟩ ⟨[9, 9, 5, 0, 1, 0, 0, 0, 2, 0, 0, 0], 0, .LittleEndian⟩ =
      ByteStream.read ⟨[9, 9, 5, 0, 1, 0, 0, 0, 2, 0, 0, 0], 2, .LittleEndian⟩ 2 := by
  refine ⟨?_, ?_, ?_, ?_⟩
  · exact (fixed_width_accessors_ignore_count ⟨1, 3, 211, 2⟩ 0
      ⟨[9, 9, 5, 0, 1, 0, 0, 0, 2, 0, 0, 0], 0, .LittleEndian⟩).1
  · exact (fixed_width_accessors_ignore_count ⟨1, 4, 211, 2⟩ 0
      ⟨[9, 9, 5, 0, 1, 0, 0, 0, 2, 0, 0, 0], 0, .LittleEndian⟩).2.1
  · exact (fixed_width_accessors_ignore_count ⟨1, 5, 211, 4⟩ 0
      ⟨[9, 9, 5, 0, 1, 0, 0, 0, 2, 0, 0, 0], 0, .LittleEndian⟩).2.2.1
  · exact (fixed_width_accessors_ignore_count ⟨1, 3, 211, 2⟩ 0
      ⟨[9, 9, 5, 0, 1, 0, 0, 0, 2, 0, 0, 0], 0, .LittleEndian⟩).2.2.2.1 rfl

/-- C6: on an entry of type 5 whose two 32-bit reads succeed with denominator
0, to_rational succeeds (no error): the IEEE division yields NaN (numerator 0)
or positive infinity (numerator nonzero), never an error. -/
theorem to_rational_zero_denominator (e : IFE) (s : ByteStream) (num : Nat)
    (s1 s2 : ByteStream)
    (h5 : e.entry_type = 5)
    (hn : ByteStream.read { s with pos := e.offset } 4 = (.ok num, s1))
    (hd : s1.read 4 = (.ok 0, s2)) :
    e.to_rational s = (.ok (natDivF64 num 0), s2) ∧
    (natDivF64 num 0 = .nan ∨ natDivF64 num 0 = .posInf) := by
  constructor
  · simp [IFE.to_rational, h5, IFE.seek_to, ByteStream.seek, hn, hd]
  · unfold natDivF64
    by_cases h : num = 0 <;> simp [h]

/-- C6 witness: numerator 7, denominator 0 decodes to positive infinity with
no error. -/
theorem to_rational_zero_denominator_witness :
    IFE.to_rational ⟨1, 5, 1, 2⟩ ⟨[0, 0, 7, 0, 0, 0, 0, 0, 0, 0], 0, .LittleEndian⟩ =
      (.ok (natDivF64 7 0), ⟨[0, 0, 7, 0, 0, 0, 0, 0, 0, 0], 10, .LittleEndian⟩) ∧
    (natDivF64 7 0 = .nan ∨ natDivF64 7 0 = .posInf) :=
  to_rational_zero_denominator ⟨1, 5, 1, 2⟩ ⟨[0, 0, 7, 0, 0, 0, 0, 0, 0, 0], 0, .LittleEndian⟩
    7 ⟨[0, 0, 7, 0, 0, 0, 0, 0, 0, 0], 6, .LittleEndian⟩
    ⟨[0, 0, 7, 0, 0, 0, 0, 0, 0, 0], 10, .LittleEndian⟩ rfl rfl rfl

/-- Unfolding lemma for the recursive branch of IFD.parse: when the
next-offset is nonzero, the current directory is appended after the
recursively parsed tail of the chain. -/
theorem ifd_parse_step (g : Nat) (u u1 u2 u3 u5 : ByteStream) (cnt nxt : Nat)
    (es : List IFE) (rem : List IFD)
    (hc : u.read 2 = (.ok cnt, u1))
    (he : parseEntries cnt u1 = (.ok es, u2))
    (hn : u2.read 4 = (.ok nxt, u3))
    (hz : nxt ≠ 0)
    (hr : IFD.parse g { u3 with pos := nxt } = (.ok rem, u5)) :
    IFD.parse (g + 1) u = (.ok (rem ++ [⟨es⟩]), u5) := by
  simp only [IFD.parse, hc, he, hn, ByteStream.seek, hr, if_neg hz]

/-- Unfolding lemma for the terminating branch of IFD.parse: a zero
next-offset ends the chain with the current directory as the only element. -/
theorem ifd_parse_last (g : Nat) (u u1 u2 u3 : ByteStream) (cnt : Nat)
    (es : List IFE)
    (hc : u.read 2 = (.ok cnt, u1))
    (he : parseEntries cnt u1 = (.ok es, u2))
    (hn : u2.read 4 = (.ok 0, u3)) :
    IFD.parse (g + 1) u = (.ok [⟨es⟩], u3) := by
  simp [IFD.parse, hc, he, hn]

/-- C7: a directory with entry count 0 and next-offset 0 parses to a
single-element list holding one directory with an empty entry list. -/
theorem ifd_parse_zero_entries (fuel : Nat) (s s1 s2 : ByteStream)
    (hc : s.read 2 = (.ok 0, s1))
    (hn : s1.read 4 = (.ok 0, s2)) :
    IFD.parse (fuel + 1) s = (.ok [⟨[]⟩], s2) :=
  ifd_parse_last fuel s s1 s1 s2 0 [] hc rfl hn

/-- C7 witness: the six-byte directory `00 00 00 00 00 00` parses to one
directory with no entries. -/
theorem ifd_parse_zero_entries_witness :
    IFD.parse 1 ⟨[0, 0, 0, 0, 0, 0], 0, .LittleEndian⟩ =
      (.ok [⟨[]⟩], ⟨[0, 0, 0, 0, 0, 0], 6, .LittleEndian⟩) :=
  ifd_parse_zero_entries 0 ⟨[0, 0, 0, 0, 0, 0], 0, .LittleEndian⟩
    ⟨[0, 0, 0, 0, 0, 0], 2, .LittleEndian⟩
    ⟨[0, 0, 0, 0, 0, 0], 6, .LittleEndian⟩ rfl rfl

/-- C1: for a 2-directory chain (directory A's next-offset points at B, B's
next-offset is 0) the walker returns exactly two directories, B before A; and
in general one chain step appends the requested directory after the
recursively parsed tail, so the directory nearest the end of the chain comes
first and the directory originally requested comes last. -/
theorem ifd_parse_two_dir_chain (fuel : Nat) (s s1 s2 s3 t1 t2 t3 : ByteStream)
    (cntA cntB next : Nat) (entriesA entriesB : List IFE)
    (h1 : s.read 2 = (.ok cntA, s1))
    (h2 : parseEntries cntA s1 = (.ok entriesA, s2))
    (h3 : s2.read 4 = (.ok next, s3))
    (hnz : next ≠ 0)
    (h4 : ByteStream.read { s3 with pos := next } 2 = (.ok cntB, t1))
    (h5 : parseEntries cntB t1 = (.ok entriesB, t2))
    (h6 : t2.read 4 = (.ok 0, t3)) :
    IFD.parse (fuel + 2) s = (.ok [⟨entriesB⟩, ⟨entriesA⟩], t3) ∧
    (∀ (g : Nat) (u u1 u2 u3 u5 : ByteStream) (cnt nxt : Nat) (es : List IFE)
      (rem : List IFD),
      u.read 2 = (.ok cnt, u1) → parseEntries cnt u1 = (.ok es, u2) →
      u2.read 4 = (.ok nxt, u3) → nxt ≠ 0 →
      IFD.parse g { u3 with pos := nxt } = (.ok rem, u5) →
      IFD.parse (g + 1) u = (.ok (rem ++ [⟨es⟩]), u5)) := by
  refine ⟨?_, fun g u u1 u2 u3 u5 cnt nxt es rem hc he hn hz hr =>
    ifd_parse_step g u u1 u2 u3 u5 cnt nxt es rem hc he hn hz hr⟩
  have hB : IFD.parse (fuel + 1) { s3 with pos := next } = (.ok [⟨entriesB⟩], t3) :=
    ifd_parse_last fuel _ t1 t2 t3 cntB entriesB h4 h5 h6
  have hA := ifd_parse_step (fuel + 1) s s1 s2 s3 t3 cntA next entriesA
    [⟨entriesB⟩] h1 h2 h3 hnz hB
  simpa using hA

/-- C1 witness: a little-endian file holding directory A (one entry, next
offset 18) at position 0 and directory B (no entries, next offset 0) at
position 18 parses to [B, A]. -/
theorem ifd_parse_two_dir_chain_witness :
    IFD.parse 2
      ⟨[1, 0, 7, 0, 3, 0, 1, 0, 0, 0, 24, 0, 0, 0, 18, 0, 0, 0,
        0, 0, 0, 0, 0, 0, 5, 0], 0, .LittleEndian⟩ =
      (.ok [⟨[]⟩, ⟨[⟨7, 3, 1, 24⟩]⟩],
        ⟨[1, 0, 7, 0, 3, 0, 1, 0, 0, 0, 24, 0, 0, 0, 18, 0, 0, 0,
          0, 0, 0, 0, 0, 0, 5, 0], 24, .LittleEndian⟩) :=
  (ifd_parse_two_dir_chain 0
    ⟨[1, 0, 7, 0, 3, 0, 1, 0, 0, 0, 24, 0, 0, 0, 18, 0, 0, 0,
      0, 0, 0, 0, 0, 0, 5, 0], 0, .LittleEndian⟩
    ⟨[1, 0, 7, 0, 3, 0, 1, 0, 0, 0, 24, 0, 0, 0, 18, 0, 0, 0,
      0, 0, 0, 0, 0, 0, 5, 0], 2, .LittleEndian⟩
    ⟨[1, 0, 7, 0, 3, 0, 1, 0, 0, 0, 24, 0, 0, 0, 18, 0, 0, 0,
      0, 0, 0, 0, 0, 0, 5, 0], 14, .LittleEndian⟩
    ⟨[1, 0, 7, 0, 3, 0, 1, 0, 0, 0, 24, 0, 0, 0, 18, 0, 0, 0,
      0, 0, 0, 0, 0, 0, 5, 0], 18, .LittleEndian⟩
    ⟨[1, 0, 7, 0, 3, 0, 1, 0, 0, 0, 24, 0, 0, 0, 18, 0, 0, 0,
      0, 0, 0, 0, 0, 0, 5, 0], 20, .LittleEndian⟩
    ⟨[1, 0, 7, 0, 3, 0, 1, 0, 0, 0, 24, 0, 0, 0, 18, 0, 0, 0,
      0, 0, 0, 0, 0, 0, 5, 0], 20, .LittleEndian⟩
    ⟨[1, 0, 7, 0, 3, 0, 1, 0, 0, 0, 24, 0, 0, 0, 18, 0, 0, 0,
      0, 0, 0, 0, 0, 0, 5, 0], 24, .LittleEndian⟩
    1 0 18 [⟨7, 3, 1, 24⟩] []
    rfl rfl rfl (by decide) rfl rfl rfl).1

/-- C5: on an entry of type 2 whose `count` bytes at `offset` are in range,
to_ascii reads exactly `count` raw bytes starting at `offset` and returns
their UTF-8 decoding unchanged — no null-stripping, so any trailing null byte
stays in the result — and it fails with an encoding error exactly when those
bytes are not valid UTF-8. -/
theorem to_ascii_spec (e : IFE) (s : ByteStream)
    (h2 : e.entry_type = 2)
    (hin : e.offset + e.count ≤ s.data.length) :
    ((s.data.drop e.offset).take e.count).length = e.count ∧
    e.read_as_bytes s =
      (.ok ((s.data.drop e.offset).take e.count), { s with pos := e.offset + e.count }) ∧
    (∀ cs, utf8Decode ((s.data.drop e.offset).take e.count) = some cs →
      e.to_ascii s = (.ok cs, { s with pos := e.offset + e.count })) ∧
    (utf8Decode ((s.data.drop e.offset).take e.count) = none →
      e.to_ascii s = (.error "invalid utf-8", { s with pos := e.offset + e.count })) := by
  have hlen : ((s.data.drop e.offset).take e.count).length = e.count := by
    simp only [List.length_take, List.length_drop]
    omega
  have hrb : e.read_as_bytes s =
      (.ok ((s.data.drop e.offset).take e.count), { s with pos := e.offset + e.count }) := by
    simp [IFE.read_as_bytes, IFE.seek_to, ByteStream.seek, ByteStream.read_bytes,
      readBytesRaw, hin]
  refine ⟨hlen, hrb, fun cs hcs => ?_, fun hnone => ?_⟩
  · simp [IFE.to_ascii, h2, hrb, hcs]
  · simp [IFE.to_ascii, h2, hrb, hnone]

/-- C5 witness: the count=6 field "ABCDE\0" decodes to the six scalar values
65..69 followed by 0 — the trailing null byte is kept. -/
theorem to_ascii_spec_witness :
    IFE.to_ascii ⟨1, 2, 6, 2⟩ ⟨[0, 0, 65, 66, 67, 68, 69, 0], 0, .LittleEndian⟩ =
      (.ok [65, 66, 67, 68, 69, 0], ⟨[0, 0, 65, 66, 67, 68, 69, 0], 8, .LittleEndian⟩) :=
  (to_ascii_spec ⟨1, 2, 6, 2⟩ ⟨[0, 0, 65, 66, 67, 68, 69, 0], 0, .LittleEndian⟩
    rfl (by decide)).2.2.1 [65, 66, 67, 68, 69, 0] (by decide)

end RustTiff
